import Mathlib

/-!
Shallow embedding of the webcam recorder with image extraction
(`webcam_recorder_with_image_extraction.py`) and of the upload validation of
the image-viewer web app (`web_app.py`), together with proofs of the spec's
claims about them.

Modelling conventions:
* Python machine arithmetic on frame counts is modelled over `Nat`;
  `int(i * total / N)` (float true-division followed by truncation toward
  zero, applied to non-negative operands) is modelled as exact natural
  division `i * total / N`, matching the mathematical floor the code computes
  on all realistic frame counts.
* Wall-clock durations are modelled over `ℚ`; Python's `/`, which raises
  `ZeroDivisionError` on a zero divisor, is modelled as an `Option`-valued
  division.
* The outcome of each per-iteration frame decode (`video_capture.read`) is an
  environment oracle `decodeOk : Nat → Bool` indexed by the loop position.
* Python's ASCII-relevant `str.lower` is modelled with `Char.toLower`
  (extensions in the allow-list are ASCII).
-/

namespace WebcamSpec

/-! ### Configuration constants (module-level constants of the Python file) -/

/-- `BUFFER_SIZE = 3`: capacity of the preview frame queue. -/
def BUFFER_SIZE : Nat := 3

/-- `NUM_IMAGES_TO_EXTRACT = 100`. -/
def NUM_IMAGES_TO_EXTRACT : Nat := 100

/-- `FRAME_INTERVAL = 30`. -/
def FRAME_INTERVAL : Nat := 30

/-- `IMAGE_QUALITY = 95`. -/
def IMAGE_QUALITY : Nat := 95

/-- `IMAGES_FOLDER = "Images"`. -/
def IMAGES_FOLDER : String := "Images"

/-- `OUTPUT_FOLDER = "Recordings"`. -/
def OUTPUT_FOLDER : String := "Recordings"

/-- `EXTRACTION_METHOD = 'evenly_spaced'`. -/
def EXTRACTION_METHOD : String := "evenly_spaced"

/-! ### Frame-index sampling (`extract_images_from_video`, lines 431-442)

The Python code is parametric only through the module constants
`NUM_IMAGES_TO_EXTRACT` and `FRAME_INTERVAL`; the definitions below expose
those as parameters so the claims can quantify over them. -/

/-- The `evenly_spaced` branch:
```
if NUM_IMAGES_TO_EXTRACT >= total_frames:
    frame_indices = list(range(total_frames))
else:
    frame_indices = [int(i * total_frames / NUM_IMAGES_TO_EXTRACT)
                     for i in range(NUM_IMAGES_TO_EXTRACT)]
``` -/
def evenlySpacedIndices (numImages totalFrames : Nat) : List Nat :=
  if numImages ≥ totalFrames then
    List.range totalFrames
  else
    (List.range numImages).map (fun i => i * totalFrames / numImages)

/-- Python's `list(range(0, stop, step))` for `start = 0`: the multiples of
`step` that are strictly below `stop`, in increasing order. -/
def pyRangeStep (stop step : Nat) : List Nat :=
  (List.range ((stop + step - 1) / step)).map (fun i => i * step)

/-- The `interval` branch:
`frame_indices = list(range(0, total_frames, FRAME_INTERVAL))[:NUM_IMAGES_TO_EXTRACT]`. -/
def intervalIndices (frameInterval numImages totalFrames : Nat) : List Nat :=
  (pyRangeStep totalFrames frameInterval).take numImages

/-- The index computation of `extract_images_from_video`, dispatching on
`EXTRACTION_METHOD` as the source does. -/
def computeFrameIndices (method : String) (numImages frameInterval totalFrames : Nat) :
    List Nat :=
  if method = "evenly_spaced" then evenlySpacedIndices numImages totalFrames
  else intervalIndices frameInterval numImages totalFrames

/-! ### Extraction loop (`extract_images_from_video`, lines 448-479) -/

/-- Python's `f"\x7bn:03d\x7d"` for a non-negative `n`: decimal digits,
zero-padded on the left to a minimum width of 3. -/
def pad3 (n : Nat) : String :=
  if n < 10 then "00" ++ toString n
  else if n < 100 then "0" ++ toString n
  else toString n

/-- `image_filename = f"image_\x7bidx+1:03d\x7d.jpg"` where `idx` is the
0-based position of the sampled frame in `frame_indices`. -/
def imageFilename (idx : Nat) : String :=
  "image_" ++ pad3 (idx + 1) ++ ".jpg"

/-- `images_output_folder = os.path.join(IMAGES_FOLDER, f"video_\x7btimestamp\x7d")`. -/
def imagesOutputFolder (timestamp : String) : String :=
  IMAGES_FOLDER ++ "/" ++ ("video_" ++ timestamp)

/-- Outcome of one extraction pass: how many sampled indices were attempted,
how many frames were successfully decoded and written, and the filenames
written (in order). -/
structure ExtractResult where
  attempted : Nat
  extracted : Nat
  files : List String
deriving DecidableEq, Repr

/-- The body of `for idx, frame_number in enumerate(frame_indices): ...`:
on decode success (`ret` true) write `image_{idx+1:03d}.jpg` and count it;
on decode failure only log and continue.  `decodeOk idx` is the environment
oracle for the decode at loop position `idx`. -/
def extractLoop (decodeOk : Nat → Bool) : Nat → List Nat → ExtractResult → ExtractResult
  | _, [], acc => acc
  | idx, _fn :: rest, acc =>
      extractLoop decodeOk (idx + 1) rest
        (if decodeOk idx then
          { attempted := acc.attempted + 1
            extracted := acc.extracted + 1
            files := acc.files ++ [imageFilename idx] }
        else
          { acc with attempted := acc.attempted + 1 })

/-- The whole per-index phase of `extract_images_from_video`, starting from
`images_extracted = 0` at position `idx = 0`. -/
def runExtraction (decodeOk : Nat → Bool) (frameIndices : List Nat) : ExtractResult :=
  extractLoop decodeOk 0 frameIndices ⟨0, 0, []⟩

/-! ### Stop-path FPS statistics (`stop_recording`, lines 361-362) -/

/-- Python's `/` on rationals: raises `ZeroDivisionError` (here `none`) on a
zero divisor. -/
def pyDiv (a b : ℚ) : Option ℚ :=
  if b = 0 then none else some (a / b)

/-- `actual_fps = self.frames_recorded / elapsed if elapsed > 0 else 0`. -/
def stopAvgFps (framesRecorded : Nat) (elapsed : ℚ) : Option ℚ :=
  if 0 < elapsed then pyDiv (framesRecorded : ℚ) elapsed else some 0

/-! ### Recorder control state machine
(`toggle_recording` / `start_recording` / `stop_recording`)

The state abstracts the fields `self.camera` (whether it is open),
`self.is_recording` and `self.video_writer`.  The single slot
`self.video_writer` can hold no writer, a writer object whose open failed
(`isOpened()` false), or an opened writer.  `openWriters` is a ghost counter
of opened-and-not-yet-released writer objects (an opened writer overwritten
without `release()` would stay counted), so "never two concurrent writers"
is `openWriters ≤ 1`. -/

/-- The contents of the `self.video_writer` slot. -/
inductive WriterState where
  | none
  | failed
  | opened
deriving DecidableEq, Repr

/-- Abstract recorder state. -/
structure RecorderState where
  cameraOpen : Bool
  isRecording : Bool
  writer : WriterState
  openWriters : Nat
deriving DecidableEq, Repr

/-- `start_recording` (lines 313-345): reject when the camera is unavailable;
otherwise create a writer (the parameter `openOk` tells whether
`VideoWriter` opens), and only on success set `is_recording = True`. -/
def startRecording (s : RecorderState) (openOk : Bool) : RecorderState :=
  if s.cameraOpen = false then s
  else
    let s1 : RecorderState :=
      { s with
        writer := if openOk then WriterState.opened else WriterState.failed
        openWriters := s.openWriters + (if openOk then 1 else 0) }
    if openOk = false then s1 else { s1 with isRecording := true }

/-- `stop_recording` (lines 355-392): no-op when not recording; otherwise
clear the flag and `release()` the writer slot (`self.video_writer = None`). -/
def stopRecording (s : RecorderState) : RecorderState :=
  if s.isRecording = false then s
  else
    { s with
      isRecording := false
      writer := WriterState.none
      openWriters := s.openWriters - (if s.writer = WriterState.opened then 1 else 0) }

/-- `toggle_recording` (lines 305-310), the only control entry point wired to
the UI record button. -/
def toggleRecording (s : RecorderState) (openOk : Bool) : RecorderState :=
  if s.isRecording = true then stopRecording s else startRecording s openOk

/-- States reachable from initialisation (`is_recording = False`,
`video_writer = None`, camera open or not) by pressing the record button,
each press with an arbitrary writer-open outcome. -/
inductive Reachable : RecorderState → Prop where
  | init (cam : Bool) : Reachable ⟨cam, false, WriterState.none, 0⟩
  | step (s : RecorderState) (openOk : Bool) :
      Reachable s → Reachable (toggleRecording s openOk)

/-! ### Bounded frame queue (`capture_frames` lines 239-245,
`update_preview` lines 275-276, `queue.Queue(maxsize=BUFFER_SIZE)` line 78) -/

/-- One step against the frame queue: the capture thread publishing a frame,
or the preview loop polling. -/
inductive QueueStep (α : Type) where
  | publish (f : α)
  | consume

/-- Producer side:
`if not self.frame_queue.full(): ... put_nowait(frame) ... except Full: pass`
— enqueue when below capacity, silently drop otherwise; never blocks. -/
def producerPublish {α : Type} (q : List α) (f : α) : List α :=
  if q.length < BUFFER_SIZE then q ++ [f] else q

/-- Consumer side: `if not self.frame_queue.empty(): get_nowait()` — pop the
front element when the queue is non-empty, no-op otherwise. -/
def consumerPoll {α : Type} (q : List α) : List α :=
  if q.isEmpty then q else q.tail

/-- Effect of one step on the queue contents. -/
def queueStep {α : Type} (q : List α) : QueueStep α → List α
  | QueueStep.publish f => producerPublish q f
  | QueueStep.consume => consumerPoll q

/-! ### Upload validation (`web_app.py`) -/

/-- `MAX_FILE_SIZE = 50 * 1024 * 1024`. -/
def MAX_FILE_SIZE : Nat := 50 * 1024 * 1024

/-- `ALLOWED_EXTENSIONS = ['.png', '.jpg', '.jpeg', '.gif', '.bmp']`. -/
def ALLOWED_EXTENSIONS : List String := [".png", ".jpg", ".jpeg", ".gif", ".bmp"]

/-- An uploaded file as the validator sees it: `file.name` and `file.size`
(bytes). -/
structure UploadedFile where
  name : String
  size : Nat
deriving DecidableEq, Repr

/-- Python's `str.lower` on the ASCII range: lowercase every character
(`Char.toLower` only affects basic latin letters, which covers every
extension in the allow-list). -/
def strToLower (s : String) : String :=
  String.mk (s.data.map Char.toLower)

/-- Index of the last occurrence of `c` in `cs` (Python `str.rfind`),
`none` when absent. -/
def strRfind (cs : List Char) (c : Char) : Option Nat :=
  match cs with
  | [] => none
  | a :: rest =>
    match strRfind rest c with
    | some i => some (i + 1)
    | none => if a = c then some (0 : Nat) else none

/-- `pathlib.PurePath.suffix` of a file name: the substring from the last
dot, provided that dot is neither the first nor the last character;
otherwise the empty string. -/
def pathSuffix (name : String) : String :=
  let cs := name.data
  match strRfind cs '.' with
  | Option.none => ""
  | Option.some i =>
    if 0 < i ∧ i < cs.length - 1 then String.mk (cs.drop i) else ""

/-- `validate_file_security` (lines 23-34): lowercased extension must be in
the allow-list, then the size must not exceed `MAX_FILE_SIZE`.  The float
formatting inside the size message is abstracted; the claims only use the
acceptance flag and which file a message names. -/
def validate_file_security (f : UploadedFile) : Bool × String :=
  let file_ext := strToLower (pathSuffix f.name)
  if (ALLOWED_EXTENSIONS.contains file_ext) = false then
    (false, "File type " ++ file_ext ++ " not allowed")
  else if MAX_FILE_SIZE < f.size then
    (false, "File too large")
  else
    (true, "File is secure")

/-- The framework session state the upload branch touches. -/
structure SessionState where
  images : List UploadedFile
  current_index : Nat
deriving DecidableEq, Repr

/-- One iteration of the upload loop: a valid file joins `valid_images`, an
invalid one contributes a `st.warning` message. -/
def uploadStep (acc : List UploadedFile × List String) (f : UploadedFile) :
    List UploadedFile × List String :=
  let v := validate_file_security f
  if v.1 then (acc.1 ++ [f], acc.2)
  else (acc.1, acc.2 ++ ["Skipped " ++ f.name ++ ": " ++ v.2])

/-- The upload branch of `main` (lines 84-96): validate each file of the
batch in order, collecting valid files and one warning per rejected file;
when at least one file is valid, replace the session's image list with the
valid ones and reset the index.  Returns the new state and the warnings. -/
def processUploads (s : SessionState) (files : List UploadedFile) :
    SessionState × List String :=
  let r := files.foldl uploadStep ([], [])
  if r.1.isEmpty then (s, r.2)
  else ({ images := r.1, current_index := 0 }, r.2)

/-! ## Helper lemmas: sampling -/

/-- One step of the evenly-spaced index formula is strictly increasing when
fewer images are requested than frames exist. -/
theorem evenlySpaced_div_step (N T i : Nat) (hN : 0 < N) (hT : N < T) :
    i * T / N < (i + 1) * T / N := by
  have h1 : i * T / N < (i * T + N) / N := by
    rw [Nat.add_div_right _ hN]
    exact Nat.lt_succ_self _
  have h2 : (i * T + N) / N ≤ (i + 1) * T / N := by
    apply Nat.div_le_div_right
    have hmul : (i + 1) * T = i * T + T := by ring
    rw [hmul]
    exact Nat.add_le_add_left (Nat.le_of_lt hT) _
  exact Nat.lt_of_lt_of_le h1 h2

/-- The evenly-spaced index formula is strictly monotone in the image
position when fewer images are requested than frames exist. -/
theorem evenlySpaced_strictMono (N T : Nat) (hN : 0 < N) (hT : N < T) :
    StrictMono (fun i => i * T / N) :=
  strictMono_nat_of_lt_succ (fun i => evenlySpaced_div_step N T i hN hT)

/-- Elements of Python's `range(0, T, K)` are below `T`. -/
theorem pyRangeStep_lt (T K i : Nat) (hK : 0 < K) (hi : i < (T + K - 1) / K) :
    i * K < T := by
  rcases Nat.eq_zero_or_pos T with hT | hT
  · exfalso
    rw [hT] at hi
    have h0 : (0 + K - 1) / K = 0 := Nat.div_eq_of_lt (by omega)
    rw [h0] at hi
    exact Nat.not_lt_zero i hi
  · have hc : (T + K - 1) / K = (T - 1) / K + 1 := by
      have harith : T + K - 1 = (T - 1) + K := by omega
      rw [harith, Nat.add_div_right _ hK]
    rw [hc] at hi
    have hle : i ≤ (T - 1) / K := Nat.lt_succ_iff.mp hi
    have hmul := (Nat.le_div_iff_mul_le hK).mp hle
    omega

/-! ## Claims on the sampling policies -/

/-- C1: for every target count `N > 0` and total frame count `T ≥ 0`, the
`evenly_spaced` branch produces exactly `min N T` distinct, monotonically
increasing frame indices, all lying in `[0, T)`; when `N ≥ T` it returns
every index `0, …, T-1`, and otherwise it returns `⌊i * T / N⌋` for
`i ∈ [0, N)`. -/
theorem evenlySpaced_sampling_correct (N T : Nat) (hN : 0 < N) :
    (evenlySpacedIndices N T).length = min N T ∧
    (evenlySpacedIndices N T).Pairwise (· < ·) ∧
    (evenlySpacedIndices N T).Nodup ∧
    (∀ x ∈ evenlySpacedIndices N T, x < T) ∧
    (T ≤ N → evenlySpacedIndices N T = List.range T) ∧
    (N < T → evenlySpacedIndices N T = (List.range N).map (fun i => i * T / N)) := by
  by_cases h : T ≤ N
  · have he : evenlySpacedIndices N T = List.range T := by
      unfold evenlySpacedIndices
      rw [if_pos h]
    refine ⟨?_, ?_, ?_, ?_, fun _ => he, fun hlt => absurd hlt (by omega)⟩
    · rw [he, List.length_range]
      exact (Nat.min_eq_right h).symm
    · rw [he]
      exact List.pairwise_lt_range T
    · rw [he]
      exact List.nodup_range T
    · rw [he]
      intro x hx
      exact List.mem_range.mp hx
  · have hTN : N < T := by omega
    have he : evenlySpacedIndices N T = (List.range N).map (fun i => i * T / N) := by
      unfold evenlySpacedIndices
      rw [if_neg h]
    have hpw : (evenlySpacedIndices N T).Pairwise (· < ·) := by
      rw [he, List.pairwise_map]
      exact (List.pairwise_lt_range N).imp
        (fun hab => evenlySpaced_strictMono N T hN hTN hab)
    refine ⟨?_, hpw, ?_, ?_, fun hc => absurd hc (by omega), fun _ => he⟩
    · rw [he, List.length_map, List.length_range]
      exact (Nat.min_eq_left (Nat.le_of_lt hTN)).symm
    · exact hpw.imp (fun hab => Nat.ne_of_lt hab)
    · intro x hx
      rw [he] at hx
      obtain ⟨i, hi, rfl⟩ := List.mem_map.mp hx
      have hi' := List.mem_range.mp hi
      have hT0 : 0 < T := by omega
      rw [Nat.div_lt_iff_lt_mul hN]
      exact Nat.lt_of_lt_of_eq ((Nat.mul_lt_mul_right hT0).mpr hi') (Nat.mul_comm N T)

/-- Witness for C1 at `N = 3`, `T = 7`. -/
theorem evenlySpaced_sampling_correct_witness :
    (evenlySpacedIndices 3 7).length = min 3 7 ∧
    (evenlySpacedIndices 3 7).Pairwise (· < ·) ∧
    (evenlySpacedIndices 3 7).Nodup ∧
    (∀ x ∈ evenlySpacedIndices 3 7, x < 7) ∧
    (7 ≤ 3 → evenlySpacedIndices 3 7 = List.range 7) ∧
    (3 < 7 → evenlySpacedIndices 3 7 = (List.range 3).map (fun i => i * 7 / 3)) :=
  evenlySpaced_sampling_correct 3 7 (by decide)

/-- C8: on the worked examples, `T = 100`, `N = 10` yields
`[0, 10, …, 90]`, and `T = 5`, `N = 10` yields `[0, 1, 2, 3, 4]`. -/
theorem evenlySpaced_worked_examples :
    evenlySpacedIndices 10 100 = [0, 10, 20, 30, 40, 50, 60, 70, 80, 90] ∧
    evenlySpacedIndices 10 5 = [0, 1, 2, 3, 4] := by
  constructor <;> decide

/-- C7: for every total frame count `T`, stride `K > 0` and cap `N`, the
`interval` branch produces the multiples of `K` that are strictly below `T`,
truncated to at most `N` samples, in increasing order. -/
theorem interval_sampling_correct (K N T : Nat) (hK : 0 < K) :
    intervalIndices K N T =
      (List.range (min N ((T + K - 1) / K))).map (fun i => i * K) ∧
    (intervalIndices K N T).length ≤ N ∧
    (intervalIndices K N T).Pairwise (· < ·) ∧
    (∀ x ∈ intervalIndices K N T, x < T ∧ K ∣ x) := by
  have he : intervalIndices K N T =
      (List.range (min N ((T + K - 1) / K))).map (fun i => i * K) := by
    unfold intervalIndices pyRangeStep
    rw [← List.map_take, List.take_range]
  refine ⟨he, ?_, ?_, ?_⟩
  · rw [he, List.length_map, List.length_range]
    exact Nat.min_le_left _ _
  · rw [he, List.pairwise_map]
    exact (List.pairwise_lt_range _).imp
      (fun hab => (Nat.mul_lt_mul_right hK).mpr hab)
  · intro x hx
    rw [he] at hx
    obtain ⟨i, hi, rfl⟩ := List.mem_map.mp hx
    have hi' := List.mem_range.mp hi
    exact ⟨pyRangeStep_lt T K i hK (Nat.lt_of_lt_of_le hi' (Nat.min_le_right _ _)),
      dvd_mul_left K i⟩

/-- Witness for C7 at `K = 2`, `N = 3`, `T = 5`. -/
theorem interval_sampling_correct_witness :
    intervalIndices 2 3 5 =
      (List.range (min 3 ((5 + 2 - 1) / 2))).map (fun i => i * 2) ∧
    (intervalIndices 2 3 5).length ≤ 3 ∧
    (intervalIndices 2 3 5).Pairwise (· < ·) ∧
    (∀ x ∈ intervalIndices 2 3 5, x < 5 ∧ 2 ∣ x) :=
  interval_sampling_correct 2 3 5 (by decide)

/-! ## Helper lemmas: frame queue -/

/-- One queue step preserves the capacity bound. -/
theorem queueStep_length_le {α : Type} (q : List α) (st : QueueStep α)
    (h : q.length ≤ BUFFER_SIZE) : (queueStep q st).length ≤ BUFFER_SIZE := by
  cases st with
  | publish f =>
    simp only [queueStep, producerPublish]
    split
    · simp only [List.length_append, List.length_cons, List.length_nil]
      omega
    · exact h
  | consume =>
    simp only [queueStep, consumerPoll]
    split
    · exact h
    · simp only [List.length_tail]
      omega

/-- Any interleaving of publish/consume steps keeps the queue within its
capacity. -/
theorem foldl_queueStep_length {α : Type} (steps : List (QueueStep α))
    (q : List α) (h : q.length ≤ BUFFER_SIZE) :
    (steps.foldl queueStep q).length ≤ BUFFER_SIZE := by
  induction steps generalizing q with
  | nil => exact h
  | cons st rest ih => exact ih _ (queueStep_length_le q st h)

/-! ## Claim on the frame queue -/

/-- C3: for every sequence of producer and consumer steps from the empty
queue, the frame queue holds at most `BUFFER_SIZE = 3` frames, and the
producer's publish step never blocks: on a full queue the new frame is
dropped and the queue is unchanged. -/
theorem frame_queue_bounded (α : Type) (steps : List (QueueStep α)) :
    (steps.foldl queueStep ([] : List α)).length ≤ BUFFER_SIZE ∧
    (∀ (q : List α) (f : α), ¬ q.length < BUFFER_SIZE → producerPublish q f = q) := by
  constructor
  · exact foldl_queueStep_length steps [] (by simp)
  · intro q f hfull
    unfold producerPublish
    rw [if_neg hfull]

/-- Witness for C3: publishing onto a full queue drops the frame. -/
theorem frame_queue_bounded_witness :
    producerPublish [0, 1, 2] 7 = [0, 1, 2] :=
  (frame_queue_bounded Nat []).2 [0, 1, 2] 7 (by decide)

/-! ## Helper lemmas: recorder state machine -/

/-- The recording-state invariant: while a session is active the writer slot
holds the one opened writer; while idle no opened writer exists at all. -/
def RecInv (s : RecorderState) : Prop :=
  (s.isRecording = true → s.writer = WriterState.opened ∧ s.openWriters = 1) ∧
  (s.isRecording = false → s.writer ≠ WriterState.opened ∧ s.openWriters = 0)

/-- The record button preserves the recording-state invariant. -/
theorem recInv_toggle (s : RecorderState) (openOk : Bool) (h : RecInv s) :
    RecInv (toggleRecording s openOk) := by
  obtain ⟨h1, h2⟩ := h
  unfold RecInv toggleRecording startRecording stopRecording
  cases hr : s.isRecording with
  | true =>
    obtain ⟨hw, hc⟩ := h1 hr
    simp [hr, hw, hc]
  | false =>
    obtain ⟨hw, hc⟩ := h2 hr
    cases hcam : s.cameraOpen with
    | false => simp [hr, hcam, hw, hc]
    | true =>
      cases openOk with
      | false => simp [hr, hcam, hw, hc]
      | true => simp [hr, hcam, hc]

/-- Every reachable recorder state satisfies the invariant. -/
theorem reachable_recInv (s : RecorderState) (h : Reachable s) : RecInv s := by
  induction h with
  | init cam =>
    constructor
    · intro hcontra
      simp at hcontra
    · intro _
      exact ⟨by simp, rfl⟩
  | step s openOk _ ih => exact recInv_toggle s openOk ih

/-! ## Claim on the recorder -/

/-- C2: in every reachable recorder state there is never more than one
opened, unreleased video writer; while a session is active the single writer
slot holds it; and pressing the record button while a session is active
performs the stop path (it never starts a second session or creates a second
writer). -/
theorem recorder_single_writer (s : RecorderState) (h : Reachable s) :
    s.openWriters ≤ 1 ∧
    (s.isRecording = true → s.writer = WriterState.opened) ∧
    (∀ openOk, s.isRecording = true →
      toggleRecording s openOk = stopRecording s ∧
      (toggleRecording s openOk).isRecording = false ∧
      (toggleRecording s openOk).openWriters = 0) := by
  obtain ⟨h1, h2⟩ := reachable_recInv s h
  refine ⟨?_, fun hr => (h1 hr).1, ?_⟩
  · cases hr : s.isRecording with
    | true => rw [(h1 hr).2]
    | false => rw [(h2 hr).2]; omega
  · intro openOk hr
    obtain ⟨hw, hc⟩ := h1 hr
    have ht : toggleRecording s openOk = stopRecording s := by
      unfold toggleRecording
      rw [if_pos hr]
    refine ⟨ht, ?_, ?_⟩
    · rw [ht]
      unfold stopRecording
      simp [hr]
    · rw [ht]
      unfold stopRecording
      simp [hr, hw, hc]

/-- Witness for C2: the state reached by one successful button press from an
open camera is recording; a second press stops it rather than starting a
second writer. -/
theorem recorder_single_writer_witness :
    (toggleRecording ⟨true, false, WriterState.none, 0⟩ true).openWriters ≤ 1 ∧
    (toggleRecording (toggleRecording ⟨true, false, WriterState.none, 0⟩ true) true).isRecording
      = false := by
  have hreach : Reachable (toggleRecording ⟨true, false, WriterState.none, 0⟩ true) :=
    Reachable.step _ true (Reachable.init true)
  have h := recorder_single_writer _ hreach
  exact ⟨h.1, (h.2.2 true (by decide)).2.1⟩

/-! ## Helper lemmas: extraction loop -/

/-- Every loop iteration counts as attempted, whatever the decode outcome. -/
theorem extractLoop_attempted (dk : Nat → Bool) (l : List Nat) :
    ∀ (idx : Nat) (acc : ExtractResult),
    (extractLoop dk idx l acc).attempted = acc.attempted + l.length := by
  induction l with
  | nil =>
    intro idx acc
    simp [extractLoop]
  | cons x rest ih =>
    intro idx acc
    simp only [extractLoop]
    rw [ih]
    by_cases hdk : dk idx = true <;> simp [hdk] <;> omega

/-- The success counter counts exactly the positions whose decode succeeds. -/
theorem extractLoop_extracted (dk : Nat → Bool) (l : List Nat) :
    ∀ (idx : Nat) (acc : ExtractResult),
    (extractLoop dk idx l acc).extracted =
      acc.extracted + (List.enumFrom idx l).countP (fun p => dk p.1) := by
  induction l with
  | nil =>
    intro idx acc
    simp [extractLoop, List.enumFrom]
  | cons x rest ih =>
    intro idx acc
    simp only [extractLoop, List.enumFrom, List.countP_cons]
    rw [ih]
    by_cases hdk : dk idx = true
    · simp [hdk]
      omega
    · simp [hdk]

/-- The files written are exactly one `image_{idx+1:03d}.jpg` per successful
position `idx`, in order. -/
theorem extractLoop_files (dk : Nat → Bool) (l : List Nat) :
    ∀ (idx : Nat) (acc : ExtractResult),
    (extractLoop dk idx l acc).files =
      acc.files ++
        ((List.enumFrom idx l).filter (fun p => dk p.1)).map
          (fun p => imageFilename p.1) := by
  induction l with
  | nil =>
    intro idx acc
    simp [extractLoop, List.enumFrom]
  | cons x rest ih =>
    intro idx acc
    simp only [extractLoop, List.enumFrom, List.filter_cons]
    rw [ih]
    by_cases hdk : dk idx = true <;> simp [hdk]

/-! ## Claims on the extraction loop -/

/-- C5: a decode failure at one sampled index is skipped without retry and
without aborting the pass: every index is still attempted, the success
counter counts exactly the successful positions, and successes never exceed
attempts.  The pass is a total function, so it always reaches its terminal
report. -/
theorem extraction_attempts_all (dk : Nat → Bool) (l : List Nat) :
    (runExtraction dk l).attempted = l.length ∧
    (runExtraction dk l).extracted = l.enum.countP (fun p => dk p.1) ∧
    (runExtraction dk l).extracted ≤ (runExtraction dk l).attempted := by
  have ha : (runExtraction dk l).attempted = l.length := by
    unfold runExtraction
    rw [extractLoop_attempted]
    simp
  have hx : (runExtraction dk l).extracted = l.enum.countP (fun p => dk p.1) := by
    unfold runExtraction
    rw [extractLoop_extracted]
    simp [List.enum]
  refine ⟨ha, hx, ?_⟩
  rw [ha, hx]
  calc l.enum.countP (fun p => dk p.1) ≤ l.enum.length :=
        List.countP_le_length (fun p : Nat × Nat => dk p.1)
    _ = l.length := List.enum_length

/-- C4, counterexample: with sampled indices `[0, 5, 9]` and a decode
failure at loop position 1, two images are written but they are numbered
001 and 003 — the numbering of the files actually written has a gap, so
the written files are not `image_001.jpg, image_002.jpg`. -/
theorem extraction_numbering_gap_counterexample :
    (runExtraction (fun i => decide (i ≠ 1)) [0, 5, 9]).extracted = 2 ∧
    (runExtraction (fun i => decide (i ≠ 1)) [0, 5, 9]).files
      = ["image_001.jpg", "image_003.jpg"] ∧
    (runExtraction (fun i => decide (i ≠ 1)) [0, 5, 9]).files
      ≠ (List.range 2).map (fun i => imageFilename i) := by
  refine ⟨by decide, by decide, by decide⟩

/-- C4, amended: the images written are JPEG files named
`image_{idx+1:03d}.jpg` where `idx` is the 0-based position of the sampled
index in the index list — one per successful decode, in order, so a decode
failure leaves a gap in the numbering, and the numbering is the gapless
`image_001.jpg, image_002.jpg, …` when every decode succeeds — grouped
under the folder `Images/video_<timestamp>` named by the originating
session's timestamp. -/
theorem extraction_numbering_amended (dk : Nat → Bool) (l : List Nat) (ts : String) :
    (runExtraction dk l).files =
      (l.enum.filter (fun p => dk p.1)).map (fun p => imageFilename p.1) ∧
    ((∀ i, dk i = true) →
      (runExtraction dk l).files = (List.range l.length).map imageFilename) ∧
    imagesOutputFolder ts = "Images/video_" ++ ts := by
  have hf : (runExtraction dk l).files =
      (l.enum.filter (fun p => dk p.1)).map (fun p => imageFilename p.1) := by
    unfold runExtraction
    rw [extractLoop_files]
    rfl
  refine ⟨hf, ?_, ?_⟩
  · intro hall
    rw [hf]
    have hfilter : l.enum.filter (fun p => dk p.1) = l.enum :=
      List.filter_eq_self.mpr (fun p _ => hall p.1)
    rw [hfilter, ← List.enum_map_fst l, List.map_map]
    rfl
  · show IMAGES_FOLDER ++ "/" ++ ("video_" ++ ts) = "Images/video_" ++ ts
    rw [String.append_assoc]
    have hpre : (IMAGES_FOLDER ++ ("/" ++ "video_") : String) = "Images/video_" := by
      decide
    rw [← hpre, String.append_assoc, String.append_assoc]

/-- Witness for C4 (amended): when every decode succeeds the two sampled
indices produce the gapless files `image_001.jpg, image_002.jpg`. -/
theorem extraction_numbering_amended_witness :
    (runExtraction (fun _ => true) [4, 9]).files =
      (List.range 2).map imageFilename :=
  (extraction_numbering_amended (fun _ => true) [4, 9] "t").2.1 (fun _ => rfl)

/-- C6: stopping a recording with zero frames written is safe: the guarded
average-FPS statistic never raises a division error, the computed index
list for a zero-frame video is empty under both sampling methods, and the
extraction job then attempts no per-index work and terminates in its
complete state without error. -/
theorem zero_frame_stop_safe (N K frames : Nat) (elapsed : ℚ) (dk : Nat → Bool) :
    (stopAvgFps frames elapsed).isSome = true ∧
    evenlySpacedIndices N 0 = [] ∧
    intervalIndices K N 0 = [] ∧
    runExtraction dk (evenlySpacedIndices N 0) = ⟨0, 0, []⟩ := by
  have hev : evenlySpacedIndices N 0 = [] := by
    unfold evenlySpacedIndices
    rw [if_pos (Nat.zero_le N)]
    exact List.range_zero
  refine ⟨?_, hev, ?_, ?_⟩
  · unfold stopAvgFps pyDiv
    by_cases hpos : 0 < elapsed
    · rw [if_pos hpos, if_neg (ne_of_gt hpos)]
      rfl
    · rw [if_neg hpos]
      rfl
  · unfold intervalIndices pyRangeStep
    have hz : (0 + K - 1) / K = 0 := by
      rcases Nat.eq_zero_or_pos K with hK | hK
      · rw [hK]
      · exact Nat.div_eq_of_lt (by omega)
    rw [hz, List.range_zero]
    simp
  · rw [hev]
    rfl

/-! ## Helper lemmas: upload validation -/

/-- Unrolling the upload loop: the collected valid files are the batch
filtered by the validator, and the warnings name exactly the rejected
files, in order. -/
theorem uploadStep_foldl (files : List UploadedFile)
    (a : List UploadedFile) (b : List String) :
    files.foldl uploadStep (a, b) =
      (a ++ files.filter (fun f => (validate_file_security f).1),
       b ++ (files.filter (fun f => !(validate_file_security f).1)).map
         (fun f => "Skipped " ++ f.name ++ ": " ++ (validate_file_security f).2)) := by
  induction files generalizing a b with
  | nil => simp
  | cons f rest ih =>
    simp only [List.foldl_cons, List.filter_cons]
    by_cases hv : (validate_file_security f).1 = true
    · have hstep : uploadStep (a, b) f = (a ++ [f], b) := by
        simp [uploadStep, hv]
      rw [hstep, ih]
      simp [hv, List.append_assoc]
    · have hv' : (validate_file_security f).1 = false := by
        revert hv
        cases (validate_file_security f).1 <;> simp
      have hstep : uploadStep (a, b) f =
          (a, b ++ ["Skipped " ++ f.name ++ ": " ++ (validate_file_security f).2]) := by
        simp [uploadStep, hv']
      rw [hstep, ih]
      simp [hv', List.append_assoc]

/-- The acceptance flag of the validator: lowercased suffix in the
allow-list and size within the limit. -/
theorem validate_flag_eq (f : UploadedFile) :
    (validate_file_security f).1 =
      (ALLOWED_EXTENSIONS.contains (strToLower (pathSuffix f.name)) &&
        decide (f.size ≤ MAX_FILE_SIZE)) := by
  simp only [validate_file_security]
  cases hc : ALLOWED_EXTENSIONS.contains (strToLower (pathSuffix f.name)) with
  | false => simp [hc]
  | true =>
    by_cases hs : MAX_FILE_SIZE < f.size
    · simp [hc, hs, Nat.not_le.mpr hs]
    · simp [hc, hs, Nat.not_lt.mp hs]

/-! ## Claims on upload validation -/

/-- C9: in every uploaded batch, each file failing the extension allow-list
or the size limit is rejected individually with a skip message, while every
valid file of the same batch still enters the session's image list. -/
theorem upload_batch_validation (s : SessionState) (files : List UploadedFile) :
    (∀ f ∈ files, (validate_file_security f).1 = true →
      f ∈ (processUploads s files).1.images) ∧
    (∀ f ∈ files, (validate_file_security f).1 = false →
      ("Skipped " ++ f.name ++ ": " ++ (validate_file_security f).2) ∈
        (processUploads s files).2) := by
  unfold processUploads
  rw [uploadStep_foldl]
  simp only [List.nil_append]
  constructor
  · intro f hf hv
    have hmemf : f ∈ files.filter (fun g => (validate_file_security g).1) :=
      List.mem_filter.mpr ⟨hf, hv⟩
    have hne : (files.filter (fun g => (validate_file_security g).1)).isEmpty = false := by
      cases hE : files.filter (fun g => (validate_file_security g).1) with
      | nil =>
        rw [hE] at hmemf
        simp at hmemf
      | cons _ _ => rfl
    rw [if_neg (by rw [hne]; exact Bool.false_ne_true)]
    exact hmemf
  · intro f hf hv
    have hsnd :
        ((if (files.filter (fun g => (validate_file_security g).1)).isEmpty = true
          then (s, (files.filter (fun g => !(validate_file_security g).1)).map
            (fun g => "Skipped " ++ g.name ++ ": " ++ (validate_file_security g).2))
          else ({ images := files.filter (fun g => (validate_file_security g).1),
                  current_index := 0 },
                (files.filter (fun g => !(validate_file_security g).1)).map
                  (fun g => "Skipped " ++ g.name ++ ": " ++ (validate_file_security g).2))) :
          SessionState × List String).2 =
        (files.filter (fun g => !(validate_file_security g).1)).map
          (fun g => "Skipped " ++ g.name ++ ": " ++ (validate_file_security g).2) := by
      split <;> rfl
    rw [hsnd]
    refine List.mem_map.mpr ⟨f, List.mem_filter.mpr ⟨hf, ?_⟩, rfl⟩
    rw [hv]
    rfl

/-- Witness for C9: in a batch with one valid and one invalid file, the
valid file lands in the session images and the invalid one gets a warning. -/
theorem upload_batch_validation_witness :
    ((⟨"a.jpg", 10⟩ : UploadedFile) ∈
      (processUploads ⟨[], 0⟩ [⟨"a.jpg", 10⟩, ⟨"b.exe", 10⟩]).1.images) ∧
    (("Skipped " ++ (UploadedFile.mk "b.exe" 10).name ++ ": " ++
        (validate_file_security ⟨"b.exe", 10⟩).2) ∈
      (processUploads ⟨[], 0⟩ [⟨"a.jpg", 10⟩, ⟨"b.exe", 10⟩]).2) := by
  have h := upload_batch_validation ⟨[], 0⟩ [⟨"a.jpg", 10⟩, ⟨"b.exe", 10⟩]
  exact ⟨h.1 ⟨"a.jpg", 10⟩ (by decide) (by decide),
    h.2 ⟨"b.exe", 10⟩ (by decide) (by decide)⟩

/-- C10: upload validation treats extensions case-insensitively: the
acceptance flag is a function of the lowercased suffix (and the size), so
two files whose suffixes agree up to ASCII case validate identically. -/
theorem upload_extension_case_insensitive (f g : UploadedFile) :
    ((validate_file_security f).1 =
      (ALLOWED_EXTENSIONS.contains (strToLower (pathSuffix f.name)) &&
        decide (f.size ≤ MAX_FILE_SIZE))) ∧
    (strToLower (pathSuffix f.name) = strToLower (pathSuffix g.name) →
      f.size = g.size →
      (validate_file_security f).1 = (validate_file_security g).1) := by
  refine ⟨validate_flag_eq f, ?_⟩
  intro he hsz
  rw [validate_flag_eq f, validate_flag_eq g, he, hsz]

/-- Witness for C10: `PHOTO.JPG` validates exactly like `photo.jpg`. -/
theorem upload_extension_case_insensitive_witness :
    (validate_file_security ⟨"PHOTO.JPG", 1000⟩).1 =
      (validate_file_security ⟨"photo.jpg", 1000⟩).1 :=
  (upload_extension_case_insensitive ⟨"PHOTO.JPG", 1000⟩ ⟨"photo.jpg", 1000⟩).2
    (by decide) (by decide)

end WebcamSpec
